import Mathlib

/-!
Verification development for the Intel-ReAI repository: a community
discussion platform with an AI retrieval-and-citation engine.

Part 1 embeds the frontend demo feed and AI companion components
(`IRedditDemo` in the demo page, `AICompanion.tsx`), which are present in
the repository source.  Part 2 models the backend retrieval engine
(Content Index, Retrieval Engine, Response Cache, Rate Limiter,
Orchestrator); the backend Python implementation is not part of the
checked-in sources, so those components are modelled from the written
specification, faithfully to its words.
-/

/-! ### String helpers mirroring the JavaScript primitives used by the code -/

/-- Whitespace characters stripped by JavaScript `String.prototype.trim`
(restricted to the ASCII whitespace actually relevant here). -/
def isJsWs (c : Char) : Bool :=
  c == ' ' || c == '\t' || c == '\n' || c == '\r'

/-- Embedding of JavaScript `s.trim()`. -/
def jsTrim (s : String) : String :=
  ⟨((s.data.dropWhile isJsWs).reverse.dropWhile isJsWs).reverse⟩

/-- Embedding of JavaScript `s.toLowerCase()` (ASCII case folding). -/
def lowerStr (s : String) : String :=
  ⟨s.data.map Char.toLower⟩

/-- Whether `needle` occurs at the start of `hay`. -/
def startsWithCh (needle hay : List Char) : Bool :=
  match needle, hay with
  | [], _ => true
  | _ :: _, [] => false
  | a :: as, b :: bs => a == b && startsWithCh as bs

/-- Whether `needle` occurs contiguously anywhere in `hay`. -/
def containsCh (needle : List Char) : List Char → Bool
  | [] => startsWithCh needle []
  | b :: rest => startsWithCh needle (b :: rest) || containsCh needle rest

/-- Embedding of JavaScript `s.includes(q)`. -/
def strIncludes (s q : String) : Bool :=
  containsCh q.data s.data

/-! ### Demo feed (`IRedditDemo` component): posts, search filter, upvote toggle -/

/-- The `Post` record of the demo feed.  The optional `saved`/`upvoted`
flags of the TypeScript type behave as `false` when absent. -/
structure Post where
  id : String
  subreddit : String
  author : String
  title : String
  body : String
  votes : Int
  comments : Nat
  createdAt : String
  tags : List String
  saved : Bool := false
  upvoted : Bool := false
deriving DecidableEq, Repr

/-- The community filter of `visiblePosts`:
`activeSub ? p.subreddit === activeSub : true`. -/
def subFilter (activeSub : Option String) (p : Post) : Bool :=
  match activeSub with
  | some s => p.subreddit == s
  | none => true

/-- The search filter of `visiblePosts`: a blank search matches everything,
otherwise the lowercased title, body, space-joined tags or subreddit must
contain the lowercased search string. -/
def searchFilter (search : String) (p : Post) : Bool :=
  if jsTrim search == "" then true
  else
    let q := lowerStr search
    strIncludes (lowerStr p.title) q ||
    strIncludes (lowerStr p.body) q ||
    strIncludes (lowerStr (String.intercalate " " p.tags)) q ||
    strIncludes (lowerStr p.subreddit) q

/-- Embedding of the `visiblePosts` memo of the demo feed: filter by the
selected community, then by the search string. -/
def visiblePosts (posts : List Post) (activeSub : Option String) (search : String) :
    List Post :=
  (posts.filter (subFilter activeSub)).filter (searchFilter search)

/-- Case-insensitive containment, as the claim about `visiblePosts` words it:
`a` contains `b` after lowercasing both. -/
def ciIncludes (a b : String) : Bool :=
  strIncludes (lowerStr a) (lowerStr b)

/-- The claim's description of `visiblePosts`, written from its words: one
pass keeping exactly the posts in the selected community (all posts when
none is selected) whose title, body, concatenated tags or subreddit name
contains the search string case-insensitively, a blank search matching
every post. -/
def visiblePostsSpec (posts : List Post) (activeSub : Option String) (search : String) :
    List Post :=
  posts.filter (fun p =>
    (match activeSub with
     | some s => p.subreddit == s
     | none => true) &&
    (jsTrim search == "" ||
     ciIncludes p.title search ||
     ciIncludes p.body search ||
     ciIncludes (String.intercalate " " p.tags) search ||
     ciIncludes p.subreddit search))

/-- Embedding of the per-post body of `toggleUpvote`: the matching post has
its `upvoted` flag flipped and its votes adjusted by one (using the old
flag), every other post is returned unchanged. -/
def togglePost (id : String) (p : Post) : Post :=
  if p.id == id then
    { p with
      upvoted := !p.upvoted
      votes := if p.upvoted then p.votes - 1 else p.votes + 1 }
  else p

/-- Embedding of `toggleUpvote` of the demo feed. -/
def toggleUpvote (id : String) (posts : List Post) : List Post :=
  posts.map (togglePost id)

/-! ### AI companion component (`AICompanion.tsx`) -/

/-- A citation as rendered by the companion UI. -/
structure FrontCitation where
  post_title : String
  excerpt : String
  relevance_score : Rat
deriving DecidableEq, Repr

/-- A quick-link source as rendered by the companion UI. -/
structure FrontSource where
  title : String
  url : String
deriving DecidableEq, Repr

/-- The `AIQueryResponse` payload of the companion API. -/
structure AIQueryResponse where
  response : String
  citations : List FrontCitation
  sources : List FrontSource
deriving DecidableEq, Repr

/-- The canned response the companion shows when the API call fails. -/
def companionErrorResponse : AIQueryResponse :=
  { response := "I'm sorry, I encountered an error processing your request. Please try again."
    citations := []
    sources := [] }

/-- The component state of `AICompanion` that `handleSubmit` reads and
writes: the input box, the last response, the loading flag and the chat
history. -/
structure CompanionState where
  query : String
  response : Option AIQueryResponse
  isLoading : Bool
  chatHistory : List (String × AIQueryResponse)
deriving DecidableEq, Repr

/-- Embedding of `AICompanion.handleSubmit`.  The `api` argument stands for
`aiApi.queryCompanion`; the second component of the result records the
queries actually sent to it.  A blank query returns before any API call;
otherwise the trimmed query is sent, a successful result is appended to the
chat history and the input cleared, a failed call appends the canned error
response and leaves the input as it was; the loading flag ends `false`
either way. -/
def handleSubmit (api : String → Except Unit AIQueryResponse) (s : CompanionState) :
    CompanionState × List String :=
  if jsTrim s.query == "" then (s, [])
  else
    let currentQuery := jsTrim s.query
    match api currentQuery with
    | .ok result =>
        ({ s with
            chatHistory := s.chatHistory ++ [(currentQuery, result)]
            query := ""
            response := none
            isLoading := false }, [currentQuery])
    | .error _ =>
        ({ s with
            chatHistory := s.chatHistory ++ [(currentQuery, companionErrorResponse)]
            response := none
            isLoading := false }, [currentQuery])

/-- First entry of the demo feed's `INITIAL_POSTS` mock data. -/
def postP1 : Post :=
  { id := "p1"
    subreddit := "r/ArtificialIntelligence"
    author := "u/bytebandit"
    title := "We rebuilt Reddit for 2025 with agents - feedback?"
    body := "Demo of an AI companion that guides first-time posters, moderates sensitive content, and curates feeds."
    votes := 482
    comments := 129
    createdAt := "2h"
    tags := ["agents", "demo", "ux"] }

/-- Second entry of the demo feed's `INITIAL_POSTS` mock data. -/
def postP2 : Post :=
  { id := "p2"
    subreddit := "r/learnprogramming"
    author := "u/dev_dan"
    title := "How to structure agentic workflows for content moderation?"
    body := "Looking for examples of triage, rules, escalation using LLM tools + human-in-the-loop."
    votes := 213
    comments := 64
    createdAt := "5h"
    tags := ["moderation", "workflows"] }

/-- A sample successful companion API payload, used to instantiate theorems. -/
def sampleResponse : AIQueryResponse :=
  { response := "Overview for this subreddit."
    citations := []
    sources := [] }

/-! ### Retrieval-and-citation engine, modelled from the specification

The backend implementation of the Content Index, Retrieval Engine,
Response Cache, Rate Limiter and Orchestrator is not among the checked-in
sources (only its API documentation, engineering documents and frontend
callers are), so the definitions below are modelled from the
specification's words. -/

/-- Modelled from the spec: the kind of a content item (post or comment). -/
inductive ContentKind where
  | post
  | comment
deriving DecidableEq, Repr

/-- Modelled from the spec: an `IndexEntry` of the Content Index — content
id mapped to its embedding plus denormalized metadata (title, parent id,
community scope, timestamp, revision, text) sufficient to build a citation
without re-fetching the source. -/
structure IndexEntry where
  cid : Nat
  kind : ContentKind
  vec : List Rat
  timestamp : Nat
  scope : Nat
  revision : Nat
  title : String
  parent : Nat
  text : String
deriving DecidableEq, Repr

/-- Modelled from the spec: the scope filter of `search`, restricting to
one community when present. -/
def scopeMatch (f : Option Nat) (e : IndexEntry) : Bool :=
  match f with
  | some s => e.scope == s
  | none => true

/-- Modelled from the spec: the ranking order of `search` — higher
similarity first, ties broken by most recent timestamp. -/
def rankRel (a b : IndexEntry × Rat) : Prop :=
  b.2 < a.2 ∨ (a.2 = b.2 ∧ b.1.timestamp ≤ a.1.timestamp)

instance : DecidableRel rankRel := fun a b => by
  unfold rankRel
  exact inferInstance

instance : IsTotal (IndexEntry × Rat) rankRel where
  total a b := by
    rcases lt_trichotomy a.2 b.2 with h | h | h
    · exact Or.inr (Or.inl h)
    · rcases Nat.le_total a.1.timestamp b.1.timestamp with ht | ht
      · exact Or.inr (Or.inr ⟨h.symm, ht⟩)
      · exact Or.inl (Or.inr ⟨h, ht⟩)
    · exact Or.inl (Or.inl h)

instance : IsTrans (IndexEntry × Rat) rankRel where
  trans a b c hab hbc := by
    rcases hab with h1 | ⟨h1, t1⟩
    · rcases hbc with h2 | ⟨h2, t2⟩
      · exact Or.inl (h2.trans h1)
      · exact Or.inl (h2 ▸ h1)
    · rcases hbc with h2 | ⟨h2, t2⟩
      · exact Or.inl (h1 ▸ h2)
      · exact Or.inr ⟨h1.trans h2, t2.trans t1⟩

/-- Modelled from the spec: the candidates of a `search` call — entries
passing the scope filter, paired with their similarity score.  The
numeric similarity (cosine over the embedding vectors) is supplied as the
`score` argument. -/
def scoredCandidates (score : List Rat → List Rat → Rat) (entries : List IndexEntry)
    (q : List Rat) (scopeFilter : Option Nat) : List (IndexEntry × Rat) :=
  (entries.filter (scopeMatch scopeFilter)).map (fun e => (e, score q e.vec))

/-- Modelled from the spec: `search` over the Content Index returning the
matched entries — rank all candidates passing the scope filter by
similarity descending (ties by most recent timestamp) and keep at most
`k`. -/
def searchEntries (score : List Rat → List Rat → Rat) (entries : List IndexEntry)
    (q : List Rat) (k : Nat) (scopeFilter : Option Nat) : List (IndexEntry × Rat) :=
  ((scoredCandidates score entries q scopeFilter).insertionSort rankRel).take k

/-- Modelled from the spec: `search(queryVector, k, scopeFilter?)` of the
Content Index, returning the ordered `(id, similarity)` pairs. -/
def search (score : List Rat → List Rat → Rat) (entries : List IndexEntry)
    (q : List Rat) (k : Nat) (scopeFilter : Option Nat) : List (Nat × Rat) :=
  (searchEntries score entries q k scopeFilter).map (fun p => (p.1.cid, p.2))

/-- Modelled from the spec: a concrete similarity used to instantiate the
theorems — the dot product of the two vectors. -/
def dotRat : List Rat → List Rat → Rat
  | a :: as, b :: bs => a * b + dotRat as bs
  | _, _ => 0

/-- Modelled from the spec: `upsert(id, vector, metadata, revision)` of the
Content Index — replaces the entry with the given content id, or inserts
it when absent. -/
def upsert (entries : List IndexEntry) (e : IndexEntry) : List IndexEntry :=
  if entries.any (fun x => x.cid == e.cid) then
    entries.map (fun x => if x.cid == e.cid then e else x)
  else e :: entries

/-- Modelled from the spec: the current revision the Content Index holds
for a content id. -/
def revLookup (entries : List IndexEntry) (cid : Nat) : Option Nat :=
  (entries.find? (fun e => e.cid == cid)).map (fun e => e.revision)

/-- Modelled from the spec: a typed upstream provider failure (timeout or
quota exceeded). -/
inductive ProviderError where
  | timeout
  | quotaExceeded
deriving DecidableEq, Repr

/-- Modelled from the spec: a `Citation` — content id, kind, title, bounded
excerpt, relevance score and source locator (parent id). -/
structure Citation where
  cid : Nat
  kind : ContentKind
  title : String
  excerpt : String
  score : Rat
  parent : Nat
deriving DecidableEq, Repr

/-- Modelled from the spec: query normalization of the Retrieval Engine
(trim, then case-fold). -/
def normalizeQuery (q : String) : String :=
  lowerStr (jsTrim q)

/-- Modelled from the spec: clamp a raw similarity to a displayed relevance
score in the interval from 0 to 1. -/
def clampScore (s : Rat) : Rat :=
  max 0 (min 1 s)

/-- Modelled from the spec: a bounded excerpt — a fixed-length prefix of
the source text. -/
def excerptOf (text : String) : String :=
  ⟨text.data.take 200⟩

/-- Modelled from the spec: the citation built from one search hit. -/
def citationOf (e : IndexEntry) (sim : Rat) : Citation :=
  { cid := e.cid
    kind := e.kind
    title := e.title
    excerpt := excerptOf e.text
    score := clampScore sim
    parent := e.parent }

/-- Modelled from the spec: the number of citations already kept for a
parent thread. -/
def countParent (parent : Nat) (acc : List Citation) : Nat :=
  (acc.filter (fun c => c.parent == parent)).length

/-- Modelled from the spec: keep at most two citations per parent thread,
scanning in rank order. -/
def capTwoPerParent (cits : List Citation) : List Citation :=
  cits.foldl (fun acc c => if countParent c.parent acc < 2 then acc ++ [c] else acc) []

/-- Modelled from the spec: the parent-diversity step of `retrieve` — cap
at most two citations per parent id, unless fewer than `k` distinct
parents exist in the candidate set. -/
def capPerParent (k : Nat) (cits : List Citation) : List Citation :=
  if ((cits.map (fun c => c.parent)).dedup).length < k then cits
  else capTwoPerParent cits

/-- Modelled from the spec: `retrieve(query, scope, k)` of the Retrieval
Engine — normalize the query, obtain its embedding from the Embedding
Provider (failure propagates as a typed upstream error), search the
Content Index, build citations, apply the per-parent cap. -/
def retrieve (embed : String → Except ProviderError (List Rat))
    (score : List Rat → List Rat → Rat) (entries : List IndexEntry)
    (scope : Option Nat) (k : Nat) (query : String) :
    Except ProviderError (List Citation) :=
  match embed (normalizeQuery query) with
  | .error e => .error e
  | .ok qv =>
      let hits := searchEntries score entries qv k scope
      .ok (capPerParent k (hits.map (fun p => citationOf p.1 p.2)))

/-- Modelled from the spec: `RateLimitState` — window start and count for
one (caller, category) key. -/
structure RateLimitState where
  windowStart : Nat
  count : Nat
deriving DecidableEq, Repr

/-- Modelled from the spec: the `ThrottledError`, carrying the reset
timestamp. -/
structure ThrottledError where
  resetAt : Nat
deriving DecidableEq, Repr

/-- Modelled from the spec: reset the counter to zero at the window
boundary — when the current fixed window has ended, start the aligned
window containing `t` with a zero count. -/
def rlRoll (w t : Nat) (s : RateLimitState) : RateLimitState :=
  if s.windowStart + w ≤ t then { windowStart := w * (t / w), count := 0 } else s

/-- Modelled from the spec: one attempt against the fixed-window rate
limiter — roll the window if it has ended, increment the count, reject
with a `ThrottledError` carrying the reset timestamp once the count
exceeds the limit. -/
def rlAttempt (limit w t : Nat) (s : RateLimitState) :
    RateLimitState × Option ThrottledError :=
  let s1 := rlRoll w t s
  let s2 : RateLimitState := { s1 with count := s1.count + 1 }
  if limit < s2.count then (s2, some ⟨s1.windowStart + w⟩) else (s2, none)

/-- Modelled from the spec: a sequence of attempts, returning the final
state and each attempt's outcome (`none` means allowed). -/
def runAttempts (limit w : Nat) (ts : List Nat) (s : RateLimitState) :
    RateLimitState × List (Option ThrottledError) :=
  match ts with
  | [] => (s, [])
  | t :: rest =>
      let r := rlAttempt limit w t s
      let out := runAttempts limit w rest r.1
      (out.1, r.2 :: out.2)

/-- Modelled from the spec: the Response Cache key — stable hash of
(normalized query, scope identifier, k), modelled as the tuple itself. -/
abbrev QKey := String × Option Nat × Nat

/-- Modelled from the spec: a `CacheEntry` — the memoized (answer text,
citation list), the revision recorded for each cited content id at
cache-write time, and the expiry instant. -/
structure CacheEntry where
  answer : String
  citations : List Citation
  citedRevs : List (Nat × Nat)
  expiresAt : Nat
deriving DecidableEq, Repr

/-- Modelled from the spec: raw lookup in the cache's key-entry list. -/
def cacheLookup (c : List (QKey × CacheEntry)) (key : QKey) : Option CacheEntry :=
  (c.find? (fun p => p.1 == key)).map (fun p => p.2)

/-- Modelled from the spec: eviction of one key from the cache. -/
def cacheErase (c : List (QKey × CacheEntry)) (key : QKey) : List (QKey × CacheEntry) :=
  c.filter (fun p => !(p.1 == key))

/-- Modelled from the spec: freshness of a cache entry — every cited
content id's stored revision still equals the Content Index's current
revision. -/
def entryFresh (entries : List IndexEntry) (e : CacheEntry) : Bool :=
  e.citedRevs.all (fun pr => revLookup entries pr.1 == some pr.2)

/-- Modelled from the spec: `get(key)` of the Response Cache — a miss on an
absent key; an expired or stale (any cited revision mismatching) entry is
a miss and is evicted; otherwise the memoized value is returned. -/
def cacheGet (entries : List IndexEntry) (now : Nat) (c : List (QKey × CacheEntry))
    (key : QKey) : Option (String × List Citation) × List (QKey × CacheEntry) :=
  match cacheLookup c key with
  | none => (none, c)
  | some e =>
      if e.expiresAt ≤ now then (none, cacheErase c key)
      else if entryFresh entries e then (some (e.answer, e.citations), c)
      else (none, cacheErase c key)

/-- Modelled from the spec: `put(key, value, ttl)` of the Response Cache —
insert the entry with expiry `now + ttl`, recording the cited revisions. -/
def cachePut (now ttl : Nat) (c : List (QKey × CacheEntry)) (key : QKey)
    (ans : String) (cits : List Citation) (revs : List (Nat × Nat)) :
    List (QKey × CacheEntry) :=
  (key, ⟨ans, cits, revs, now + ttl⟩) :: cacheErase c key

/-- Modelled from the spec: the shared mutable state the Orchestrator owns —
the Content Index, the Response Cache and the per-caller rate limiter
states. -/
structure SysState where
  entries : List IndexEntry
  cache : List (QKey × CacheEntry)
  rates : List (String × RateLimitState)
deriving DecidableEq, Repr

/-- Modelled from the spec: a Content Index `upsert` at the system level —
marks no cache entry and deletes nothing eagerly (invalidation is lazy,
checked on cache read). -/
def sysUpsert (st : SysState) (e : IndexEntry) : SysState :=
  { st with entries := upsert st.entries e }

/-- Modelled from the spec: the rate-limit state for a caller, created
lazily on first request. -/
def getRL (rates : List (String × RateLimitState)) (caller : String) (w t : Nat) :
    RateLimitState :=
  match (rates.find? (fun p => p.1 == caller)).map (fun p => p.2) with
  | some s => s
  | none => { windowStart := w * (t / w), count := 0 }

/-- Modelled from the spec: store an updated rate-limit state for a
caller. -/
def setRL (rates : List (String × RateLimitState)) (caller : String)
    (s : RateLimitState) : List (String × RateLimitState) :=
  (caller, s) :: rates.filter (fun p => !(p.1 == caller))

/-- Modelled from the spec: the stages of the Orchestrator's request state
machine. -/
inductive Stage where
  | received
  | rateChecked
  | cacheHit
  | cacheMiss
  | retrieving
  | generating
  | caching
  | done
  | failed
deriving DecidableEq, Repr

/-- Modelled from the spec: the Orchestrator's error taxonomy (the cases
exercised here). -/
inductive OError where
  | throttled (resetAt : Nat)
  | provider (e : ProviderError)
deriving DecidableEq, Repr

/-- Modelled from the spec: the Orchestrator's end-to-end sequence —
rate-check, then cache lookup (return on hit), then retrieval, then
generation by the Completion Provider, then write-through to cache.  The
third component of the result is the trace of stages the request went
through; a throttled request fails before any retrieval or generation. -/
def orchestrate (limit w k ttl : Nat)
    (embed : String → Except ProviderError (List Rat))
    (complete : String → List Citation → Except ProviderError String)
    (score : List Rat → List Rat → Rat)
    (st : SysState) (t : Nat) (caller query : String) (scope : Option Nat) :
    SysState × Except OError (String × List Citation) × List Stage :=
  let r := rlAttempt limit w t (getRL st.rates caller w t)
  let st1 : SysState := { st with rates := setRL st.rates caller r.1 }
  match r.2 with
  | some err => (st1, .error (.throttled err.resetAt), [.received, .failed])
  | none =>
      let key : QKey := (normalizeQuery query, scope, k)
      let got := cacheGet st1.entries t st1.cache key
      let st2 : SysState := { st1 with cache := got.2 }
      match got.1 with
      | some v => (st2, .ok v, [.received, .rateChecked, .cacheHit, .done])
      | none =>
          match retrieve embed score st2.entries scope k query with
          | .error e =>
              (st2, .error (.provider e),
               [.received, .rateChecked, .cacheMiss, .retrieving, .failed])
          | .ok cits =>
              match complete query cits with
              | .error e =>
                  (st2, .error (.provider e),
                   [.received, .rateChecked, .cacheMiss, .retrieving, .generating, .failed])
              | .ok text =>
                  let revs := cits.map (fun c => (c.cid, (revLookup st2.entries c.cid).getD 0))
                  let st3 : SysState :=
                    { st2 with cache := cachePut t ttl st2.cache key text cits revs }
                  (st3, .ok (text, cits),
                   [.received, .rateChecked, .cacheMiss, .retrieving, .generating,
                    .caching, .done])

/-- Modelled from the spec: two index entries used to instantiate the
search theorems, sharing one embedding vector so their similarities tie. -/
def entryA : IndexEntry :=
  { cid := 1, kind := .post, vec := [1], timestamp := 5, scope := 0, revision := 1
    title := "Borrow checker explained", parent := 1, text := "Borrow checker explained" }

/-- Modelled from the spec: second sample entry, same embedding vector as
`entryA`. -/
def entryB : IndexEntry :=
  { cid := 2, kind := .post, vec := [1], timestamp := 3, scope := 0, revision := 1
    title := "Ownership in practice", parent := 2, text := "Ownership in practice" }

/-- Modelled from the spec: a copy of `entryA` whose revision has been
bumped, used to instantiate the invalidation theorem. -/
def bumpedA : IndexEntry :=
  { entryA with revision := 2 }

/-- A concrete cache key used to instantiate the cache theorems. -/
def key0 : QKey := ("rust ownership", none, 5)

/-- A concrete cache entry citing content id 1 at revision 1. -/
def cachedE : CacheEntry :=
  { answer := "cached answer", citations := [], citedRevs := [(1, 1)], expiresAt := 100 }

/-- A concrete system state holding `entryA` and one cache entry. -/
def st4 : SysState :=
  { entries := [entryA], cache := [(key0, cachedE)], rates := [] }

/-- A concrete empty system state. -/
def st6 : SysState :=
  { entries := [], cache := [], rates := [] }

/-- A concrete system state whose caller "u" has exhausted its window. -/
def st7 : SysState :=
  { entries := [], cache := [], rates := [("u", { windowStart := 0, count := 5 })] }

/-! ### Helper lemmas -/

/-- Toggling the upvote of a single post twice restores the post. -/
theorem togglePost_togglePost (id : String) (p : Post) :
    togglePost id (togglePost id p) = p := by
  cases p with
  | mk pid sub author title body votes comments createdAt tags saved upvoted =>
    by_cases h : pid == id
    · cases upvoted <;> simp [togglePost, h]
    · simp [togglePost, h]

/-! ### Claims about the demo feed and AI companion -/

/-- Claim C8: `visiblePosts` contains exactly the posts in the selected
community (all posts when none is selected) whose title, body,
concatenated tags or subreddit name contains the search string
case-insensitively; a blank (empty or whitespace-only) search matches
every post, and the relative order of posts is preserved: the two
filtering passes of the code equal the single filter written from the
claim's words, which preserves order by construction. -/
theorem visiblePosts_eq_spec (posts : List Post) (activeSub : Option String)
    (search : String) :
    visiblePosts posts activeSub search = visiblePostsSpec posts activeSub search := by
  unfold visiblePosts visiblePostsSpec
  rw [List.filter_filter]
  apply List.filter_congr
  intro p _
  unfold searchFilter subFilter ciIncludes
  by_cases h : jsTrim search == "" <;> simp [h, Bool.and_comm]

/-- Claim C9: toggling the upvote on a post id twice restores the posts
array; a single toggle flips the matched post's `upvoted` flag and adjusts
its votes by one according to the old flag, and leaves every post with a
different id unchanged. -/
theorem toggleUpvote_involution (id : String) (posts : List Post) :
    toggleUpvote id (toggleUpvote id posts) = posts ∧
    (∀ p : Post, p.id = id →
       (togglePost id p).upvoted = !p.upvoted ∧
       (togglePost id p).votes = (if p.upvoted then p.votes - 1 else p.votes + 1)) ∧
    (∀ p : Post, p.id ≠ id → togglePost id p = p) := by
  refine ⟨?_, ?_, ?_⟩
  · unfold toggleUpvote
    induction posts with
    | nil => rfl
    | cons p ps ih => simp [togglePost_togglePost, ih]
  · intro p hp
    have hbeq : p.id == id := by simp [hp]
    constructor <;> simp [togglePost, hbeq]
  · intro p hp
    have hbeq : (p.id == id) = false := by simp [hp]
    simp [togglePost, hbeq]

/-- Witness for C9 at the demo's mock posts. -/
theorem toggleUpvote_involution_witness :
    toggleUpvote "p1" (toggleUpvote "p1" [postP1, postP2]) = [postP1, postP2] ∧
    (togglePost "p1" postP1).upvoted = !postP1.upvoted ∧
    (togglePost "p1" postP1).votes =
      (if postP1.upvoted then postP1.votes - 1 else postP1.votes + 1) ∧
    togglePost "p1" postP2 = postP2 :=
  ⟨(toggleUpvote_involution "p1" [postP1, postP2]).1,
   ((toggleUpvote_involution "p1" [postP1, postP2]).2.1 postP1 rfl).1,
   ((toggleUpvote_involution "p1" [postP1, postP2]).2.1 postP1 rfl).2,
   (toggleUpvote_involution "p1" [postP1, postP2]).2.2 postP2 (by decide)⟩

/-- Claim C10: a query whose trimmed form is empty makes `handleSubmit`
return before any API call, leaving the full component state (chat
history, response, loading flag, input) unchanged; any other query reaches
the API exactly once, and the query sent is the trimmed string. -/
theorem handleSubmit_blank_query (api : String → Except Unit AIQueryResponse)
    (s : CompanionState) :
    (jsTrim s.query = "" → handleSubmit api s = (s, [])) ∧
    ((handleSubmit api s).2 = if jsTrim s.query == "" then [] else [jsTrim s.query]) := by
  constructor
  · intro h
    simp [handleSubmit, h]
  · by_cases h : jsTrim s.query == ""
    · simp [handleSubmit, h]
    · simp only [handleSubmit, h, if_false, Bool.false_eq_true]
      cases api (jsTrim s.query) <;> simp

/-- Witness for C10: a whitespace-only query is a no-op, and a padded query
is sent trimmed. -/
theorem handleSubmit_blank_query_witness :
    handleSubmit (fun _ => .ok sampleResponse) ⟨"   ", none, false, []⟩ =
      (⟨"   ", none, false, []⟩, []) ∧
    (handleSubmit (fun _ => .ok sampleResponse) ⟨" hi ", none, false, []⟩).2 = ["hi"] :=
  ⟨(handleSubmit_blank_query (fun _ => .ok sampleResponse) ⟨"   ", none, false, []⟩).1
     (by decide),
   ((handleSubmit_blank_query (fun _ => .ok sampleResponse) ⟨" hi ", none, false, []⟩).2).trans
     (by decide)⟩

/-- A revision lookup hitting the head entry. -/
theorem revLookup_cons_pos (e : IndexEntry) (l : List IndexEntry) (cid : Nat)
    (h : e.cid == cid) : revLookup (e :: l) cid = some e.revision := by
  simp [revLookup, h]

/-- A revision lookup skipping the head entry. -/
theorem revLookup_cons_neg (e : IndexEntry) (l : List IndexEntry) (cid : Nat)
    (h : ¬ (e.cid == cid)) : revLookup (e :: l) cid = revLookup l cid := by
  simp [revLookup, h]

/-- Replacing every entry with the upserted id makes a lookup of that id
return the upserted revision, provided some entry had the id. -/
theorem revLookup_map_replace (x : IndexEntry) :
    ∀ entries : List IndexEntry, entries.any (fun y => y.cid == x.cid) →
      revLookup (entries.map (fun y => if y.cid == x.cid then x else y)) x.cid =
        some x.revision := by
  intro entries
  induction entries with
  | nil =>
    intro h
    simp at h
  | cons a as ih =>
    intro h
    rw [List.map_cons]
    by_cases ha : a.cid == x.cid
    · rw [if_pos ha, revLookup_cons_pos x _ x.cid (by simp)]
    · rw [if_neg ha, revLookup_cons_neg a _ x.cid ha]
      apply ih
      simp only [List.any_cons, Bool.or_eq_true] at h
      rcases h with h1 | h2
      · exact absurd h1 ha
      · exact h2

/-- After an upsert, the Content Index's current revision for the upserted
id is the upserted revision. -/
theorem revLookup_upsert (entries : List IndexEntry) (x : IndexEntry) :
    revLookup (upsert entries x) x.cid = some x.revision := by
  unfold upsert
  by_cases h : entries.any (fun y => y.cid == x.cid)
  · rw [if_pos h]
    exact revLookup_map_replace x entries h
  · rw [if_neg h]
    exact revLookup_cons_pos x entries x.cid (by simp)

/-- Claim C2: when the Embedding Provider fails, `retrieve` fails with the
typed upstream error propagated to the caller; it never succeeds with an
empty or degraded citation list in its place. -/
theorem retrieve_provider_error (embed : String → Except ProviderError (List Rat))
    (score : List Rat → List Rat → Rat) (entries : List IndexEntry)
    (scope : Option Nat) (k : Nat) (query : String) (e : ProviderError)
    (h : embed (normalizeQuery query) = .error e) :
    retrieve embed score entries scope k query = .error e := by
  simp [retrieve, h]

/-- Witness for C2 with a timing-out provider. -/
theorem retrieve_provider_error_witness :
    (fun _ : String => (Except.error ProviderError.timeout : Except ProviderError (List Rat)))
        (normalizeQuery "explain the borrow checker") = .error .timeout ∧
    retrieve (fun _ => .error .timeout) dotRat [entryA] none 5 "explain the borrow checker" =
      .error .timeout :=
  ⟨rfl, retrieve_provider_error (fun _ => .error .timeout) dotRat [entryA] none 5
    "explain the borrow checker" .timeout rfl⟩

/-- Claim C4: once a cited content id's revision has advanced past the
revision recorded at cache-write time, the next `cacheGet` on that key is
a miss and evicts the entry; the upsert itself leaves the cache untouched
(invalidation is checked on lookup, not pushed on write). -/
theorem cache_lazy_invalidation (st : SysState) (now : Nat) (key : QKey)
    (e : CacheEntry) (x : IndexEntry) (r : Nat)
    (hl : cacheLookup st.cache key = some e)
    (hmem : (x.cid, r) ∈ e.citedRevs)
    (hadv : r < x.revision) :
    (sysUpsert st x).cache = st.cache ∧
    cacheGet (sysUpsert st x).entries now (sysUpsert st x).cache key =
      (none, cacheErase (sysUpsert st x).cache key) := by
  refine ⟨rfl, ?_⟩
  show cacheGet (upsert st.entries x) now st.cache key = (none, cacheErase st.cache key)
  unfold cacheGet
  rw [hl]
  by_cases hex : e.expiresAt ≤ now
  · simp [hex]
  · have hfresh : entryFresh (upsert st.entries x) e = false := by
      rw [Bool.eq_false_iff]
      intro hall
      unfold entryFresh at hall
      rw [List.all_eq_true] at hall
      have := hall (x.cid, r) hmem
      rw [revLookup_upsert st.entries x] at this
      simp at this
      omega
    simp [hex, hfresh]

/-- Witness for C4: bumping the revision of `entryA` invalidates the entry
citing it. -/
theorem cache_lazy_invalidation_witness :
    cacheLookup st4.cache key0 = some cachedE ∧
    (bumpedA.cid, 1) ∈ cachedE.citedRevs ∧
    1 < bumpedA.revision ∧
    cacheGet (sysUpsert st4 bumpedA).entries 0 (sysUpsert st4 bumpedA).cache key0 =
      (none, cacheErase (sysUpsert st4 bumpedA).cache key0) :=
  ⟨by decide, by decide, by decide,
   (cache_lazy_invalidation st4 0 key0 cachedE bumpedA 1 (by decide) (by decide)
     (by decide)).2⟩

/-- Claim C5: a `cachePut` followed by a `cacheGet` on the same key before
the TTL elapses, with every cited revision unchanged, returns the value
identical to the one put; after the TTL has elapsed the get is a miss. -/
theorem cache_roundtrip (entries : List IndexEntry) (c : List (QKey × CacheEntry))
    (key : QKey) (ans : String) (cits : List Citation) (revs : List (Nat × Nat))
    (tPut ttl tGet : Nat) :
    (tGet < tPut + ttl →
       (∀ pr ∈ revs, revLookup entries pr.1 = some pr.2) →
       (cacheGet entries tGet (cachePut tPut ttl c key ans cits revs) key).1 =
         some (ans, cits)) ∧
    (tPut + ttl ≤ tGet →
       (cacheGet entries tGet (cachePut tPut ttl c key ans cits revs) key).1 = none) := by
  have hlook : cacheLookup (cachePut tPut ttl c key ans cits revs) key =
      some ⟨ans, cits, revs, tPut + ttl⟩ := by
    unfold cachePut cacheLookup
    simp [List.find?_cons]
  constructor
  · intro hts hfresh
    unfold cacheGet
    rw [hlook]
    have hex : ¬ (tPut + ttl ≤ tGet) := by omega
    have hf : entryFresh entries ⟨ans, cits, revs, tPut + ttl⟩ = true := by
      unfold entryFresh
      rw [List.all_eq_true]
      intro pr hpr
      simp [hfresh pr hpr]
    simp [hex, hf]
  · intro hts
    unfold cacheGet
    rw [hlook]
    simp [hts]

/-- Witness for C5: round trip at concrete times 5 (inside the TTL) and 10
(expired). -/
theorem cache_roundtrip_witness :
    (5 < 0 + 10 ∧
     revLookup [entryA] 1 = some 1 ∧
     (cacheGet [entryA] 5 (cachePut 0 10 [] key0 "a" [] [(1, 1)]) key0).1 =
       some ("a", [])) ∧
    (0 + 10 ≤ 10 ∧
     (cacheGet [entryA] 10 (cachePut 0 10 [] key0 "a" [] [(1, 1)]) key0).1 = none) :=
  ⟨⟨by decide, by decide,
    (cache_roundtrip [entryA] [] key0 "a" [] [(1, 1)] 0 10 5).1 (by decide)
      (by decide)⟩,
   ⟨by decide, (cache_roundtrip [entryA] [] key0 "a" [] [(1, 1)] 0 10 10).2 (by decide)⟩⟩

/-- Claim C7: a request rejected by the rate check fails with the throttled
error and never enters the retrieving or generating stage; its outcome is
the same whatever the Embedding and Completion Providers would do, so
neither provider is invoked. -/
theorem throttled_short_circuit (limit w k ttl : Nat)
    (embed : String → Except ProviderError (List Rat))
    (complete : String → List Citation → Except ProviderError String)
    (score : List Rat → List Rat → Rat)
    (st : SysState) (t : Nat) (caller query : String) (scope : Option Nat)
    (err : ThrottledError)
    (hthr : (rlAttempt limit w t (getRL st.rates caller w t)).2 = some err) :
    (orchestrate limit w k ttl embed complete score st t caller query scope).2.1 =
      .error (.throttled err.resetAt) ∧
    Stage.retrieving ∉ (orchestrate limit w k ttl embed complete score st t caller query scope).2.2 ∧
    Stage.generating ∉ (orchestrate limit w k ttl embed complete score st t caller query scope).2.2 ∧
    ∀ (embed2 : String → Except ProviderError (List Rat))
      (complete2 : String → List Citation → Except ProviderError String),
      orchestrate limit w k ttl embed2 complete2 score st t caller query scope =
        orchestrate limit w k ttl embed complete score st t caller query scope := by
  have hout : ∀ (em : String → Except ProviderError (List Rat))
      (co : String → List Citation → Except ProviderError String),
      orchestrate limit w k ttl em co score st t caller query scope =
        ({ st with rates := setRL st.rates caller (rlAttempt limit w t (getRL st.rates caller w t)).1 },
         .error (.throttled err.resetAt), [.received, .failed]) := by
    intro em co
    unfold orchestrate
    simp only [hthr]
  refine ⟨?_, ?_, ?_, ?_⟩
  · rw [hout embed complete]
  · rw [hout embed complete]
    simp
  · rw [hout embed complete]
    simp
  · intro embed2 complete2
    rw [hout embed2 complete2, hout embed complete]

/-- Witness for C7: the exhausted caller of `st7` is throttled and the
outcome carries the window reset time. -/
theorem throttled_short_circuit_witness :
    (rlAttempt 1 10 1 (getRL st7.rates "u" 10 1)).2 = some ⟨10⟩ ∧
    (orchestrate 1 10 5 60 (fun _ => .ok [1]) (fun _ _ => .ok "a") dotRat st7 1 "u"
        "q" none).2.1 = .error (.throttled 10) ∧
    Stage.retrieving ∉ (orchestrate 1 10 5 60 (fun _ => .ok [1]) (fun _ _ => .ok "a")
        dotRat st7 1 "u" "q" none).2.2 :=
  ⟨by decide,
   (throttled_short_circuit 1 10 5 60 (fun _ => .ok [1]) (fun _ _ => .ok "a") dotRat st7
     1 "u" "q" none ⟨10⟩ (by decide)).1,
   (throttled_short_circuit 1 10 5 60 (fun _ => .ok [1]) (fun _ _ => .ok "a") dotRat st7
     1 "u" "q" none ⟨10⟩ (by decide)).2.1⟩

/-- Mapping the rejection threshold over one whole window of attempt
indices yields exactly `n` allowed outcomes followed by one rejection. -/
theorem range_map_threshold (n : Nat) (x : ThrottledError) :
    (List.range (n + 1)).map (fun i => if n < i + 1 then some x else none) =
      List.replicate n none ++ [some x] := by
  rw [List.range_succ, List.map_append]
  congr 1
  · refine List.eq_replicate_iff.mpr ⟨by simp, ?_⟩
    intro b hb
    simp only [List.mem_map, List.mem_range] at hb
    obtain ⟨i, hi, hbe⟩ := hb
    rw [← hbe, if_neg (by omega)]
  · simp

/-- Running a batch of attempts whose times all fall inside the current
window: the window never rolls, the count goes up by one per attempt, and
the i-th attempt is allowed exactly while the incremented count stays
within the limit. -/
theorem runAttempts_inWindow (limit w : Nat) :
    ∀ (ts : List Nat) (s : RateLimitState),
      (∀ t ∈ ts, t < s.windowStart + w) →
      runAttempts limit w ts s =
        ({ windowStart := s.windowStart, count := s.count + ts.length },
         (List.range ts.length).map
           (fun i => if limit < s.count + i + 1 then some ⟨s.windowStart + w⟩ else none)) := by
  intro ts
  induction ts with
  | nil =>
    intro s h
    rfl
  | cons t rest ih =>
    intro s h
    have hlt : t < s.windowStart + w := h t (List.mem_cons_self t rest)
    have hroll : rlRoll w t s = s := by
      unfold rlRoll
      rw [if_neg (by omega)]
    have hatt : rlAttempt limit w t s =
        ({ windowStart := s.windowStart, count := s.count + 1 },
         if limit < s.count + 1 then some ⟨s.windowStart + w⟩ else none) := by
      simp only [rlAttempt, hroll]
      by_cases hc : limit < s.count + 1 <;> simp [hc]
    unfold runAttempts
    simp only [hatt]
    rw [ih { windowStart := s.windowStart, count := s.count + 1 }
        (fun u hu => h u (List.mem_cons_of_mem t hu))]
    simp only [Prod.mk.injEq, RateLimitState.mk.injEq]
    refine ⟨⟨trivial, by simp only [List.length_cons]; omega⟩, ?_⟩
    rw [List.length_cons, List.range_succ_eq_map, List.map_cons, List.map_map]
    congr 1
    apply List.map_congr_left
    intro i _
    have harith : s.count + 1 + i + 1 = s.count + (i + 1) + 1 := by omega
    rw [harith]
    rfl

/-- Claim C3: starting from a zero count, every attempt inside one fixed
window succeeds up to the configured limit, the following attempt is
rejected with a `ThrottledError` carrying the window's reset timestamp,
and at the window boundary the counter resets to zero. -/
theorem rate_limiter_window (limit w : Nat) (s : RateLimitState) (ts : List Nat)
    (hcount : s.count = 0)
    (hts : ∀ t ∈ ts, t < s.windowStart + w)
    (hlen : ts.length = limit + 1) :
    (runAttempts limit w ts s).2 =
      List.replicate limit none ++ [some ⟨s.windowStart + w⟩] ∧
    (runAttempts limit w ts s).1.count = limit + 1 ∧
    ∀ t, s.windowStart + w ≤ t → (rlRoll w t (runAttempts limit w ts s).1).count = 0 := by
  have hrun := runAttempts_inWindow limit w ts s hts
  refine ⟨?_, ?_, ?_⟩
  · rw [hrun]
    simp only [hcount, hlen, Nat.zero_add]
    exact range_map_threshold limit ⟨s.windowStart + w⟩
  · rw [hrun]
    simp [hcount, hlen]
  · intro t ht
    rw [hrun]
    unfold rlRoll
    rw [if_pos ht]

/-- Witness for C3: limit 2, window 10, three attempts at times 1, 2, 3 —
two allowed, the third rejected with reset time 10, and an attempt at
time 12 sees a fresh counter. -/
theorem rate_limiter_window_witness :
    (runAttempts 2 10 [1, 2, 3] ⟨0, 0⟩).2 =
      List.replicate 2 none ++ [some ⟨10⟩] ∧
    (runAttempts 2 10 [1, 2, 3] ⟨0, 0⟩).1.count = 3 ∧
    (rlRoll 10 12 (runAttempts 2 10 [1, 2, 3] ⟨0, 0⟩).1).count = 0 :=
  ⟨(rate_limiter_window 2 10 ⟨0, 0⟩ [1, 2, 3] rfl (by decide) rfl).1,
   (rate_limiter_window 2 10 ⟨0, 0⟩ [1, 2, 3] rfl (by decide) rfl).2.1,
   (rate_limiter_window 2 10 ⟨0, 0⟩ [1, 2, 3] rfl (by decide) rfl).2.2 12 (by decide)⟩

/-- Claim C6: `search` on an empty Content Index returns the empty list
(it cannot raise — it is total), and end to end a request against an empty
index for which the rate check passes, the cache misses and both providers
succeed still returns a generated answer whose citation list is empty,
not an error. -/
theorem empty_index_empty_answer
    (score : List Rat → List Rat → Rat) (qv : List Rat) (k : Nat) (f : Option Nat)
    (limit w ttl t : Nat)
    (embed : String → Except ProviderError (List Rat))
    (complete : String → List Citation → Except ProviderError String)
    (st : SysState) (caller query : String) (scope : Option Nat) (text : String)
    (hempty : st.entries = [])
    (hrate : (rlAttempt limit w t (getRL st.rates caller w t)).2 = none)
    (hmiss : cacheLookup st.cache (normalizeQuery query, scope, k) = none)
    (hembed : embed (normalizeQuery query) = .ok qv)
    (hcomp : complete query [] = .ok text) :
    search score [] qv k f = [] ∧
    (orchestrate limit w k ttl embed complete score st t caller query scope).2.1 =
      .ok (text, []) := by
  have hget : cacheGet st.entries t st.cache (normalizeQuery query, scope, k) =
      (none, st.cache) := by
    unfold cacheGet
    rw [hmiss]
  have hret : retrieve embed score st.entries scope k query = .ok [] := by
    unfold retrieve
    rw [hembed, hempty]
    simp [searchEntries, scoredCandidates, capPerParent, capTwoPerParent,
      List.insertionSort]
  refine ⟨?_, ?_⟩
  · simp [search, searchEntries, scoredCandidates, List.insertionSort]
  · unfold orchestrate
    simp only [hrate, hget, hret, hcomp]

/-- Witness for C6 on an entirely empty system state. -/
theorem empty_index_empty_answer_witness :
    st6.entries = [] ∧
    (rlAttempt 1 10 0 (getRL st6.rates "u" 10 0)).2 = none ∧
    cacheLookup st6.cache (normalizeQuery "rust ownership", none, 5) = none ∧
    search dotRat [] [1] 5 none = [] ∧
    (orchestrate 1 10 5 60 (fun _ => .ok [1]) (fun _ _ => .ok "answer") dotRat st6 0 "u"
        "rust ownership" none).2.1 = .ok ("answer", []) :=
  ⟨rfl, by decide, rfl,
   (empty_index_empty_answer dotRat [1] 5 none 1 10 60 0 (fun _ => .ok [1])
     (fun _ _ => .ok "answer") st6 "u" "rust ownership" none "answer" rfl (by decide)
     rfl rfl rfl).1,
   (empty_index_empty_answer dotRat [1] 5 none 1 10 60 0 (fun _ => .ok [1])
     (fun _ _ => .ok "answer") st6 "u" "rust ownership" none "answer" rfl (by decide)
     rfl rfl rfl).2⟩

/-- Claim C1 (amended): over a Content Index with distinct content ids,
`search` returns at most `k` pairs, ordered descending (non-increasing) by
similarity score — strictness fails on tied scores, which the index
resolves by timestamp — with no duplicate content ids. -/
theorem search_ranked (score : List Rat → List Rat → Rat) (entries : List IndexEntry)
    (q : List Rat) (k : Nat) (f : Option Nat)
    (h : (entries.map (fun e => e.cid)).Nodup) :
    (search score entries q k f).length ≤ k ∧
    ((search score entries q k f).map Prod.snd).Pairwise (fun a b => b ≤ a) ∧
    ((search score entries q k f).map Prod.fst).Nodup := by
  have hsorted : List.Sorted rankRel
      ((scoredCandidates score entries q f).insertionSort rankRel) :=
    List.sorted_insertionSort rankRel _
  have htake : List.Pairwise rankRel (searchEntries score entries q k f) :=
    List.Pairwise.sublist (List.take_sublist k _) hsorted
  refine ⟨?_, ?_, ?_⟩
  · unfold search
    rw [List.length_map]
    exact List.length_take_le k _
  · unfold search
    rw [List.map_map, List.pairwise_map]
    refine htake.imp ?_
    intro a b hab
    rcases hab with h' | ⟨h', _⟩
    · exact le_of_lt h'
    · exact le_of_eq h'.symm
  · have h1 : List.Pairwise (fun a b : IndexEntry => a.cid ≠ b.cid) entries :=
      List.pairwise_map.mp h
    have h2 : List.Pairwise (fun a b : IndexEntry => a.cid ≠ b.cid)
        (entries.filter (scopeMatch f)) :=
      List.Pairwise.sublist (List.filter_sublist entries) h1
    have h3 : List.Pairwise (fun a b : IndexEntry × Rat => a.1.cid ≠ b.1.cid)
        (scoredCandidates score entries q f) := by
      unfold scoredCandidates
      rw [List.pairwise_map]
      exact h2
    have h4 : List.Pairwise (fun a b : IndexEntry × Rat => a.1.cid ≠ b.1.cid)
        ((scoredCandidates score entries q f).insertionSort rankRel) :=
      ((List.perm_insertionSort rankRel
          (scoredCandidates score entries q f)).pairwise_iff
        (fun hxy => hxy.symm)).mpr h3
    have h5 : List.Pairwise (fun a b : IndexEntry × Rat => a.1.cid ≠ b.1.cid)
        (searchEntries score entries q k f) :=
      List.Pairwise.sublist (List.take_sublist k _) h4
    unfold search
    rw [List.map_map]
    exact List.pairwise_map.mpr h5

/-- Witness for C1 on two sample entries with distinct content ids. -/
theorem search_ranked_witness :
    (([entryA, entryB].map (fun e => e.cid)).Nodup) ∧
    ((search dotRat [entryA, entryB] [1] 2 none).length ≤ 2 ∧
     ((search dotRat [entryA, entryB] [1] 2 none).map Prod.snd).Pairwise
       (fun a b => b ≤ a) ∧
     ((search dotRat [entryA, entryB] [1] 2 none).map Prod.fst).Nodup) :=
  ⟨by decide, search_ranked dotRat [entryA, entryB] [1] 2 none (by decide)⟩

/-- Counterexample to C1 as stated: with two entries sharing the same
embedding vector the two returned similarity scores tie, so the
two-element result is not ordered strictly descending by similarity. -/
theorem search_not_strictly_descending :
    (search dotRat [entryA, entryB] [1] 2 none).length = 2 ∧
    ¬ List.Chain' (fun a b : Rat => b < a)
        ((search dotRat [entryA, entryB] [1] 2 none).map Prod.snd) := by
  have hrel : rankRel (entryA, dotRat [1] entryA.vec) (entryB, dotRat [1] entryB.vec) :=
    Or.inr ⟨rfl, by decide⟩
  have hs : search dotRat [entryA, entryB] [1] 2 none =
      [(entryA.cid, dotRat [1] entryA.vec), (entryB.cid, dotRat [1] entryB.vec)] := by
    unfold search searchEntries scoredCandidates
    rw [show List.filter (scopeMatch none) [entryA, entryB] = [entryA, entryB] from rfl]
    rw [List.map_cons, List.map_cons, List.map_nil]
    rw [show ([(entryA, dotRat [1] entryA.vec),
          (entryB, dotRat [1] entryB.vec)].insertionSort rankRel) =
        List.orderedInsert rankRel (entryA, dotRat [1] entryA.vec)
          [(entryB, dotRat [1] entryB.vec)] from rfl]
    simp only [List.orderedInsert]
    rw [if_pos hrel]
    rfl
  refine ⟨by rw [hs]; rfl, ?_⟩
  intro hchain
  rw [hs] at hchain
  simp only [List.map_cons, List.map_nil] at hchain
  exact absurd (List.chain'_cons.mp hchain).1 (lt_irrefl _)
